import Mathlib

/-!
Shallow embedding of `src/lib.rs` of the `1password.rs` crate: a typed
wrapper around the external `op` command-line tool.  Pure data and pure
decision logic are translated directly; the subprocess boundary is modelled
by passing the captured outcome (stdout bytes, stderr bytes, exit status)
and the foreign decoding functions (`serde_json::from_slice`,
`String::from_utf8`) explicitly.
-/

namespace OnePassword

/-- A field of a login item (`OpItemField` in `lib.rs`); `field_type` embeds
the Rust field `field_type`, serialized under the JSON key `"type"`. -/
structure OpItemField where
  designation : Option String
  name : String
  field_type : String
  value : String
  deriving Repr, DecidableEq

/-- The untagged two-shape union `OpItemDetails` in `lib.rs`. -/
inductive OpItemDetails where
  | Password (password : String)
  | Login (fields : List OpItemField)
  deriving Repr, DecidableEq

/-- Embedding of `OpItemOverview` in `lib.rs`. -/
structure OpItemOverview where
  ainfo : String
  title : String
  deriving Repr, DecidableEq

/-- Embedding of `OpItem` in `lib.rs`: the item returned from `OpSession::get_item`. -/
structure OpItem where
  uuid : String
  vault_uuid : String
  changer_uuid : String
  overview : OpItemOverview
  details : OpItemDetails
  deriving Repr, DecidableEq

/-- Embedding of `OpItem::password` in `lib.rs`: the direct password for the `Password`
shape, otherwise the value of the first field whose designation equals
`Some("password")`. -/
def OpItem.password (item : OpItem) : Option String :=
  match item.details with
  | .Password password => some password
  | .Login fields =>
      (fields.find? (fun x => x.designation == some "password")).map
        (fun x => x.value)

/-- Embedding of `Op` in `lib.rs`: wraps the path to the `op` executable. -/
structure Op where
  command : String
  deriving Repr, DecidableEq

/-- Embedding of `OpSession` in `lib.rs`: an `Op` handle plus a session token. -/
structure OpSession where
  config : Op
  session : String
  deriving Repr, DecidableEq

/-- Embedding of `std::env::VarError`: lookup of a single environment variable either
finds nothing or finds a value that is not valid unicode. -/
inductive VarError where
  | notPresent
  | notUnicode
  deriving Repr, DecidableEq

/-- Embedding of `std::process::ExitStatus`, modelled by its exit code; `none` stands
for termination without an exit code (e.g. by signal). -/
structure ExitStatus where
  code : Option Int
  deriving Repr, DecidableEq

/-- Embedding of `ExitStatus::success()`: the process exited with code 0. -/
def ExitStatus.success (s : ExitStatus) : Bool :=
  s.code == some 0

/-- The error type generated by the `error_chain!` block in `lib.rs`:
the foreign links (JSON parse, IO, environment variable, UTF-8 decode)
and the five crate-specific error kinds. -/
inductive OpError where
  | jsonParse (msg : String)
  | io (msg : String)
  | sessionVar (e : VarError)
  | stdErrUtf8 (bytes : List Nat)
  | missingOpCommand
  | missingSessionVariable
  | multipleSessionVariables (domains : List String)
  | getCommand (uuid : String) (stderr : String) (status : ExitStatus)
  | versionCommand (stderr : String) (status : ExitStatus)
  deriving Repr, DecidableEq

/-- Embedding of `Op::session` in `lib.rs`. -/
def Op.session (op : Op) (session : String) : OpSession :=
  { config := op, session := session }

/-- The value bound to an environment variable: either valid unicode text
or not. -/
inductive EnvValue where
  | utf8 (s : String)
  | nonUnicode
  deriving Repr, DecidableEq

/-- A process environment: the association list of variable bindings in
the order the platform enumerates them. -/
abbrev Env := List (String × EnvValue)

/-- Embedding of `std::env::var`: look up one variable by exact name. -/
def envVar (env : Env) (name : String) : Except VarError String :=
  match (env.find? (fun kv => kv.1 == name)).map Prod.snd with
  | none => .error .notPresent
  | some .nonUnicode => .error .notUnicode
  | some (.utf8 s) => .ok s

/-- Prefix test on character sequences, structurally recursive. -/
def charsLeading : List Char → List Char → Bool
  | [], _ => true
  | _ :: _, [] => false
  | c :: cs, d :: ds => c == d && charsLeading cs ds

/-- Rust's `str::starts_with(pre)`: `pre` is a prefix of `s` as a sequence
of characters. -/
def strStartsWith (s pre : String) : Bool :=
  charsLeading pre.data s.data

/-- Embedding of `Op::env_account_session` in `lib.rs`: look up `OP_SESSION_<subdomain>`;
absent yields `MissingSessionVariable`, any other lookup error is converted
into the error chain, a value becomes the session token. -/
def Op.env_account_session (op : Op) (env : Env) (subdomain : String) :
    Except OpError OpSession :=
  match envVar env ("OP_SESSION_" ++ subdomain) with
  | .error .notPresent => .error .missingSessionVariable
  | .error err => .error (.sessionVar err)
  | .ok session => .ok { config := op, session := session }

/-- Embedding of `Op::env_session` in `lib.rs`: collect every variable whose name starts
with `OP_SESSION_` and dispatch on how many there are.  The argument is the
enumeration produced by `std::env::vars()`, a list of unicode key/value
pairs in environment order. -/
def Op.env_session (op : Op) (envList : List (String × String)) :
    Except OpError OpSession :=
  match envList.filter (fun kv => strStartsWith kv.1 "OP_SESSION_") with
  | [] => .error .missingSessionVariable
  | [kv] => .ok { config := op, session := kv.2 }
  | vars => .error (.multipleSessionVariables (vars.map Prod.fst))

/-- The captured outcome of one subprocess invocation
(`std::process::Output`): raw stdout bytes, raw stderr bytes, exit status. -/
structure ProcOutput where
  stdout : List Nat
  stderr : List Nat
  status : ExitStatus
  deriving Repr, DecidableEq

/-- Embedding of `Op::version` in `lib.rs`, applied to the captured outcome of
`op --version`.  `fromUtf8` embeds `String::from_utf8`; stdout is decoded
first, then stderr, then exit code 1 is treated as success and the trimmed
stdout returned, while any other status yields `VersionCommand`. -/
def Op.version (fromUtf8 : List Nat → Except (List Nat) String)
    (_op : Op) (output : ProcOutput) : Except OpError String :=
  match fromUtf8 output.stdout with
  | .error e => .error (.stdErrUtf8 e)
  | .ok stdout =>
    match fromUtf8 output.stderr with
    | .error e => .error (.stdErrUtf8 e)
    | .ok stderr =>
      if output.status.code == some 1 then
        .ok stdout.trim
      else
        .error (.versionCommand stderr output.status)

/-- Embedding of `OpSession::get_item` in `lib.rs`, applied to the captured outcome of
`op get item --session <token> <uuid>`.  `fromSlice` embeds
`serde_json::from_slice::<OpItem>` and `fromUtf8` embeds
`String::from_utf8`. -/
def OpSession.get_item (fromSlice : List Nat → Except String OpItem)
    (fromUtf8 : List Nat → Except (List Nat) String)
    (_s : OpSession) (uuid : String) (output : ProcOutput) :
    Except OpError OpItem :=
  if output.status.success then
    match fromSlice output.stdout with
    | .ok item => .ok item
    | .error e => .error (.jsonParse e)
  else
    match fromUtf8 output.stderr with
    | .ok stderr => .error (.getCommand uuid stderr output.status)
    | .error e => .error (.stdErrUtf8 e)

/-- JSON values, as produced and consumed through `serde_json`.  Numbers are
modelled as integers; no field of the item schema is numeric. -/
inductive Json where
  | null
  | bool (b : Bool)
  | num (n : Int)
  | str (s : String)
  | arr (xs : List Json)
  | obj (kvs : List (String × Json))
  deriving Repr

/-- Field lookup inside a JSON object, as the derived deserializers see it:
first binding with the given key. -/
def getField (kvs : List (String × Json)) (key : String) : Option Json :=
  (kvs.find? (fun kv => kv.1 == key)).map Prod.snd

/-- The serde-derived serializer for `OpItemField`: `Option` designation
becomes `null` when absent, the Rust field `field_type` is written under
the key `"type"` per the `rename` attribute. -/
def encodeField (f : OpItemField) : Json :=
  .obj [("designation", match f.designation with
          | none => .null
          | some s => .str s),
        ("name", .str f.name),
        ("type", .str f.field_type),
        ("value", .str f.value)]

/-- The serde-derived serializer for `OpItemDetails`: untagged, so each
variant writes only its own fields. -/
def encodeDetails : OpItemDetails → Json
  | .Password password => .obj [("password", .str password)]
  | .Login fields => .obj [("fields", .arr (fields.map encodeField))]

/-- The serde-derived serializer for `OpItem`, with `rename_all = camelCase`
turning `vault_uuid` into `vaultUuid` and `changer_uuid` into
`changerUuid`. -/
def encodeItem (item : OpItem) : Json :=
  .obj [("uuid", .str item.uuid),
        ("vaultUuid", .str item.vault_uuid),
        ("changerUuid", .str item.changer_uuid),
        ("overview", .obj [("ainfo", .str item.overview.ainfo),
                           ("title", .str item.overview.title)]),
        ("details", encodeDetails item.details)]

/-- The serde-derived deserializer for `OpItemField`: a missing or `null`
`designation` becomes `None` (serde's default handling of `Option` fields),
the other three fields are required strings, unknown fields are ignored. -/
def decodeField : Json → Except String OpItemField
  | .obj kvs => do
    let designation ← match getField kvs "designation" with
      | none => .ok none
      | some .null => .ok none
      | some (.str s) => .ok (some s)
      | some _ => .error "invalid type for designation"
    let name ← match getField kvs "name" with
      | some (.str s) => .ok s
      | _ => .error "missing or invalid field name"
    let field_type ← match getField kvs "type" with
      | some (.str s) => .ok s
      | _ => .error "missing or invalid field type"
    let value ← match getField kvs "value" with
      | some (.str s) => .ok s
      | _ => .error "missing or invalid field value"
    .ok { designation, name, field_type, value }
  | _ => .error "expected object for OpItemField"

/-- Deserialize a JSON array elementwise as `OpItemField`s. -/
def decodeFieldList : List Json → Except String (List OpItemField)
  | [] => .ok []
  | j :: js => do
    let f ← decodeField j
    let fs ← decodeFieldList js
    .ok (f :: fs)

/-- The `Password` arm of the untagged `OpItemDetails` deserializer: an
object with a string field `password`; unknown fields are ignored. -/
def decodePasswordShape : Json → Except String OpItemDetails
  | .obj kvs =>
    match getField kvs "password" with
    | some (.str p) => .ok (.Password p)
    | some _ => .error "invalid type for password"
    | none => .error "missing field password"
  | _ => .error "expected object for OpItemDetails"

/-- The `Login` arm of the untagged `OpItemDetails` deserializer: an object
with an array field `fields`; unknown fields are ignored. -/
def decodeLoginShape : Json → Except String OpItemDetails
  | .obj kvs =>
    match getField kvs "fields" with
    | some (.arr js) => (decodeFieldList js).map (fun fs => .Login fs)
    | some _ => .error "invalid type for fields"
    | none => .error "missing field fields"
  | _ => .error "expected object for OpItemDetails"

/-- The serde-derived deserializer for the untagged `OpItemDetails`: the
variants are tried in declaration order, `Password` first, then `Login`,
and the decode fails only when both arms fail. -/
def decodeDetails (j : Json) : Except String OpItemDetails :=
  match decodePasswordShape j with
  | .ok d => .ok d
  | .error _ =>
    match decodeLoginShape j with
    | .ok d => .ok d
    | .error _ => .error "data did not match any variant of OpItemDetails"

/-- The serde-derived deserializer for `OpItemOverview`. -/
def decodeOverview : Json → Except String OpItemOverview
  | .obj kvs => do
    let ainfo ← match getField kvs "ainfo" with
      | some (.str s) => .ok s
      | _ => .error "missing or invalid field ainfo"
    let title ← match getField kvs "title" with
      | some (.str s) => .ok s
      | _ => .error "missing or invalid field title"
    .ok { ainfo, title }
  | _ => .error "expected object for OpItemOverview"

/-- The serde-derived deserializer for `OpItem` (camelCase keys). -/
def decodeItem : Json → Except String OpItem
  | .obj kvs => do
    let uuid ← match getField kvs "uuid" with
      | some (.str s) => .ok s
      | _ => .error "missing or invalid field uuid"
    let vault_uuid ← match getField kvs "vaultUuid" with
      | some (.str s) => .ok s
      | _ => .error "missing or invalid field vaultUuid"
    let changer_uuid ← match getField kvs "changerUuid" with
      | some (.str s) => .ok s
      | _ => .error "missing or invalid field changerUuid"
    let overview ← match getField kvs "overview" with
      | some j => decodeOverview j
      | none => .error "missing field overview"
    let details ← match getField kvs "details" with
      | some j => decodeDetails j
      | none => .error "missing field details"
    .ok { uuid, vault_uuid, changer_uuid, overview, details }
  | _ => .error "expected object for OpItem"

/-! ## Helper lemmas -/

/-- When the element at index `i` satisfies `p` and every earlier element
does not, `find?` returns exactly that element. -/
theorem find?_eq_get_of_first {α : Type} (p : α → Bool) (l : List α) :
    ∀ (i : Nat) (h : i < l.length),
      p (l.get ⟨i, h⟩) = true →
      (∀ (j : Nat) (hj : j < i), p (l.get ⟨j, Nat.lt_trans hj h⟩) = false) →
      l.find? p = some (l.get ⟨i, h⟩) := by
  induction l with
  | nil => intro i h; simp at h
  | cons x xs ih =>
    intro i h hp hmin
    cases i with
    | zero => exact List.find?_cons_of_pos _ hp
    | succ n =>
      have hx : p x = false := hmin 0 (Nat.succ_pos n)
      rw [List.find?_cons_of_neg _ (by simp [hx])]
      exact ih n (Nat.lt_of_succ_lt_succ h) hp
        (fun j hj => hmin (j + 1) (Nat.succ_lt_succ hj))

/-- Decoding an encoded item field succeeds and reproduces the field. -/
theorem decodeField_encodeField (f : OpItemField) :
    decodeField (encodeField f) = .ok f := by
  obtain ⟨d, n, ty, val⟩ := f
  cases d <;> rfl

/-- Decoding an encoded list of item fields reproduces the list. -/
theorem decodeFieldList_map_encodeField (fs : List OpItemField) :
    decodeFieldList (fs.map encodeField) = .ok fs := by
  induction fs with
  | nil => rfl
  | cons f fs ih =>
    show Except.bind (decodeField (encodeField f))
        (fun g => Except.bind (decodeFieldList (fs.map encodeField))
          (fun gs => Except.ok (g :: gs))) = .ok (f :: fs)
    rw [decodeField_encodeField, ih]
    rfl

/-- Decoding encoded details reproduces the details, for either shape. -/
theorem decodeDetails_encodeDetails (d : OpItemDetails) :
    decodeDetails (encodeDetails d) = .ok d := by
  cases d with
  | Password p => rfl
  | Login fs =>
    show (match Except.map (fun gs => OpItemDetails.Login gs)
        (decodeFieldList (fs.map encodeField)) with
      | .ok d => (.ok d : Except String OpItemDetails)
      | .error _ => .error "data did not match any variant of OpItemDetails") =
        .ok (.Login fs)
    rw [decodeFieldList_map_encodeField]
    rfl

/-! ## Claim theorems -/

/-- C6: for every `OpItem` whose details is the direct-password shape
carrying password string `p`, `password()` returns `Some p`, the exact
string stored in the details. -/
theorem password_direct_shape (u v c : String) (ov : OpItemOverview)
    (p : String) :
    OpItem.password ⟨u, v, c, ov, .Password p⟩ = some p := rfl

/-- C1: on the field-list shape, `password()` returns `Some` of the value of
the first field (in list order) whose designation equals `"password"`, and
`None` when no field has that designation. -/
theorem password_login_first_designation (item : OpItem)
    (fields : List OpItemField) (hdet : item.details = .Login fields) :
    ((∀ f ∈ fields, f.designation ≠ some "password") → item.password = none) ∧
    (∀ (i : Nat) (h : i < fields.length),
      (fields.get ⟨i, h⟩).designation = some "password" →
      (∀ (j : Nat) (hj : j < i),
        (fields.get ⟨j, Nat.lt_trans hj h⟩).designation ≠ some "password") →
      item.password = some (fields.get ⟨i, h⟩).value) := by
  have hpw : item.password =
      (fields.find? (fun x => x.designation == some "password")).map
        (fun x => x.value) := by
    unfold OpItem.password
    rw [hdet]
  rw [hpw]
  constructor
  · intro hnone
    rw [List.find?_eq_none.mpr (fun f hf => by simpa using hnone f hf)]
    rfl
  · intro i h hp hmin
    rw [find?_eq_get_of_first _ fields i h (by simpa using hp)
      (fun j hj => by simpa using hmin j hj)]
    rfl

/-- Witness for C1 at a concrete field list: with duplicate `"password"`
designations the first match wins, and with no matching designation the
result is absent. -/
theorem password_login_first_designation_witness :
    OpItem.password ⟨"u", "v", "c", ⟨"a", "t"⟩, .Login
      [⟨some "username", "n0", "T", "x0"⟩,
       ⟨some "password", "n1", "T", "s1"⟩,
       ⟨some "password", "n2", "T", "s2"⟩]⟩ = some "s1" ∧
    OpItem.password ⟨"u", "v", "c", ⟨"a", "t"⟩, .Login
      [⟨none, "password", "T", "password"⟩]⟩ = none := by
  constructor
  · exact (password_login_first_designation
      ⟨"u", "v", "c", ⟨"a", "t"⟩, .Login
        [⟨some "username", "n0", "T", "x0"⟩,
         ⟨some "password", "n1", "T", "s1"⟩,
         ⟨some "password", "n2", "T", "s2"⟩]⟩
      [⟨some "username", "n0", "T", "x0"⟩,
       ⟨some "password", "n1", "T", "s1"⟩,
       ⟨some "password", "n2", "T", "s2"⟩] rfl).2 1 (by decide) (by decide)
      (fun j hj => by
        have hz : j = 0 := by omega
        subst hz
        simp)
  · exact (password_login_first_designation
      ⟨"u", "v", "c", ⟨"a", "t"⟩, .Login [⟨none, "password", "T", "password"⟩]⟩
      [⟨none, "password", "T", "password"⟩] rfl).1 (by decide)

/-- C7: serializing an `OpItem` to JSON and deserializing the result yields
a structurally equal `OpItem`, for every item with either details shape. -/
theorem opItem_json_roundtrip (item : OpItem) :
    decodeItem (encodeItem item) = .ok item := by
  obtain ⟨u, v, c, ⟨a, t⟩, d⟩ := item
  show Except.bind (decodeDetails (encodeDetails d))
      (fun det => Except.ok (OpItem.mk u v c (OpItemOverview.mk a t) det)) =
    Except.ok (OpItem.mk u v c (OpItemOverview.mk a t) d)
  rw [decodeDetails_encodeDetails]
  rfl

/-- C9: the `env_session` match test is a plain prefix test, so a variable
named exactly `OP_SESSION_` matches: alone it yields a session with its
value as token, and next to another matching variable both names are listed
in the `MultipleSessionVariables` error. -/
theorem env_session_exact_prefix_var (op : Op) (v w : String) :
    op.env_session [("OP_SESSION_", v)] = .ok { config := op, session := v } ∧
    op.env_session [("OP_SESSION_", v), ("OP_SESSION_acme", w)] =
      .error (.multipleSessionVariables ["OP_SESSION_", "OP_SESSION_acme"]) :=
  ⟨rfl, rfl⟩

/-- C2: `env_session` fails with `MissingSessionVariable` when no variable
with the `OP_SESSION_` prefix is set, builds a session from the value of the
single matching variable when exactly one is set, and fails with
`MultipleSessionVariables` carrying exactly the matching names (in
environment order) when two or more are set. -/
theorem env_session_match_count (op : Op)
    (envList : List (String × String)) :
    (envList.filter (fun kv => strStartsWith kv.1 "OP_SESSION_") = [] →
      op.env_session envList = .error .missingSessionVariable) ∧
    (∀ k v, envList.filter (fun kv => strStartsWith kv.1 "OP_SESSION_") =
        [(k, v)] →
      op.env_session envList = .ok { config := op, session := v }) ∧
    (2 ≤ (envList.filter (fun kv => strStartsWith kv.1 "OP_SESSION_")).length →
      op.env_session envList = .error (.multipleSessionVariables
        ((envList.filter
          (fun kv => strStartsWith kv.1 "OP_SESSION_")).map Prod.fst))) := by
  refine ⟨?_, ?_, ?_⟩
  · intro h
    unfold Op.env_session
    rw [h]
  · intro k v h
    unfold Op.env_session
    rw [h]
  · intro h
    unfold Op.env_session
    rcases hf : envList.filter (fun kv => strStartsWith kv.1 "OP_SESSION_")
      with _ | ⟨a, _ | ⟨b, rest⟩⟩
    · rw [hf] at h; simp at h
    · rw [hf] at h; simp at h
    · rw [hf]

/-- Witness for C2 at concrete environments with zero, one and two
matching variables. -/
theorem env_session_match_count_witness :
    Op.env_session ⟨"op"⟩ [("PATH", "x")] = .error .missingSessionVariable ∧
    Op.env_session ⟨"op"⟩ [("PATH", "x"), ("OP_SESSION_acme", "tok")] =
      .ok { config := ⟨"op"⟩, session := "tok" } ∧
    Op.env_session ⟨"op"⟩ [("OP_SESSION_a", "t1"), ("OP_SESSION_b", "t2")] =
      .error (.multipleSessionVariables ["OP_SESSION_a", "OP_SESSION_b"]) := by
  refine ⟨?_, ?_, ?_⟩
  · exact (env_session_match_count ⟨"op"⟩ [("PATH", "x")]).1 (by decide)
  · exact (env_session_match_count ⟨"op"⟩
      [("PATH", "x"), ("OP_SESSION_acme", "tok")]).2.1 "OP_SESSION_acme" "tok"
      (by decide)
  · exact (env_session_match_count ⟨"op"⟩
      [("OP_SESSION_a", "t1"), ("OP_SESSION_b", "t2")]).2.2 (by decide)

/-- C5: `env_account_session subdomain` succeeds exactly when the variable
named `OP_SESSION_<subdomain>` is set to valid text, whose value becomes
the session token, regardless of other variables; when absent it fails with
`MissingSessionVariable`, and when set to invalid text the lookup error is
propagated. -/
theorem env_account_session_lookup (op : Op) (env : Env)
    (subdomain : String) :
    (env.find? (fun kv => kv.1 == "OP_SESSION_" ++ subdomain) = none →
      op.env_account_session env subdomain = .error .missingSessionVariable) ∧
    (∀ k s, env.find? (fun kv => kv.1 == "OP_SESSION_" ++ subdomain) =
        some (k, .utf8 s) →
      op.env_account_session env subdomain =
        .ok { config := op, session := s }) ∧
    (∀ k, env.find? (fun kv => kv.1 == "OP_SESSION_" ++ subdomain) =
        some (k, .nonUnicode) →
      op.env_account_session env subdomain =
        .error (.sessionVar .notUnicode)) := by
  refine ⟨?_, ?_, ?_⟩
  · intro h
    simp [Op.env_account_session, envVar, h]
  · intro k s h
    simp [Op.env_account_session, envVar, h]
  · intro k h
    simp [Op.env_account_session, envVar, h]

/-- Witness for C5: the exactly named variable is used even among other
prefixed variables, and its absence yields the missing-variable error. -/
theorem env_account_session_lookup_witness :
    Op.env_account_session ⟨"op"⟩
      [("OP_SESSION_other", .utf8 "x"), ("OP_SESSION_acme", .utf8 "tok")]
      "acme" = .ok { config := ⟨"op"⟩, session := "tok" } ∧
    Op.env_account_session ⟨"op"⟩ [("OP_SESSION_other", .utf8 "x")] "acme" =
      .error .missingSessionVariable ∧
    Op.env_account_session ⟨"op"⟩ [("OP_SESSION_acme", .nonUnicode)] "acme" =
      .error (.sessionVar .notUnicode) := by
  refine ⟨?_, ?_, ?_⟩
  · exact (env_account_session_lookup ⟨"op"⟩
      [("OP_SESSION_other", .utf8 "x"), ("OP_SESSION_acme", .utf8 "tok")]
      "acme").2.1 "OP_SESSION_acme" "tok" (by decide)
  · exact (env_account_session_lookup ⟨"op"⟩
      [("OP_SESSION_other", .utf8 "x")] "acme").1 (by decide)
  · exact (env_account_session_lookup ⟨"op"⟩
      [("OP_SESSION_acme", .nonUnicode)] "acme").2.2 "OP_SESSION_acme"
      (by decide)

/-- C3: on a successful exit status `get_item` returns the item parsed from
stdout, propagating a JSON decode error on parse failure; on an
unsuccessful exit status it returns `GetCommand` carrying the uuid, the
stderr text and the raw status, propagating a text-decode error when
stderr is not valid text. -/
theorem get_item_outcome (fromSlice : List Nat → Except String OpItem)
    (fromUtf8 : List Nat → Except (List Nat) String)
    (s : OpSession) (uuid : String) (out : ProcOutput) :
    (out.status.success = true → ∀ item, fromSlice out.stdout = .ok item →
      s.get_item fromSlice fromUtf8 uuid out = .ok item) ∧
    (out.status.success = true → ∀ e, fromSlice out.stdout = .error e →
      s.get_item fromSlice fromUtf8 uuid out = .error (.jsonParse e)) ∧
    (out.status.success = false → ∀ t, fromUtf8 out.stderr = .ok t →
      s.get_item fromSlice fromUtf8 uuid out =
        .error (.getCommand uuid t out.status)) ∧
    (out.status.success = false → ∀ e, fromUtf8 out.stderr = .error e →
      s.get_item fromSlice fromUtf8 uuid out = .error (.stdErrUtf8 e)) := by
  refine ⟨?_, ?_, ?_, ?_⟩ <;> intro hs x hx <;>
    simp [OpSession.get_item, hs, hx]

/-- Witness for C3 at the two spec scenarios: exit 0 with parsable stdout
returns the parsed item, exit 1 with stderr text yields `GetCommand`. -/
theorem get_item_outcome_witness :
    OpSession.get_item
      (fun _ => .ok ⟨"u1", "v1", "c1", ⟨"a", "t"⟩, .Password "secret"⟩)
      (fun _ => .ok "not found") ⟨⟨"op"⟩, "tok"⟩ "u1" ⟨[], [], ⟨some 0⟩⟩ =
      .ok ⟨"u1", "v1", "c1", ⟨"a", "t"⟩, .Password "secret"⟩ ∧
    OpSession.get_item (fun _ => .error "bad json") (fun _ => .ok "not found")
      ⟨⟨"op"⟩, "tok"⟩ "missing" ⟨[], [], ⟨some 1⟩⟩ =
      .error (.getCommand "missing" "not found" ⟨some 1⟩) := by
  constructor
  · exact (get_item_outcome
      (fun _ => .ok ⟨"u1", "v1", "c1", ⟨"a", "t"⟩, .Password "secret"⟩)
      (fun _ => .ok "not found") ⟨⟨"op"⟩, "tok"⟩ "u1"
      ⟨[], [], ⟨some 0⟩⟩).1 rfl _ rfl
  · exact (get_item_outcome (fun _ => .error "bad json")
      (fun _ => .ok "not found") ⟨⟨"op"⟩, "tok"⟩ "missing"
      ⟨[], [], ⟨some 1⟩⟩).2.2.1 rfl _ rfl

/-- C4: when standard output and error decode as text, `version()` returns
the trimmed stdout exactly when the exit code equals 1, and for any other
exit status returns `VersionCommand` carrying the stderr text and the raw
status. -/
theorem version_exit_code_one (fromUtf8 : List Nat → Except (List Nat) String)
    (op : Op) (out : ProcOutput) (sout serr : String)
    (hout : fromUtf8 out.stdout = .ok sout)
    (herr : fromUtf8 out.stderr = .ok serr) :
    (out.status.code = some 1 → op.version fromUtf8 out = .ok sout.trim) ∧
    (out.status.code ≠ some 1 →
      op.version fromUtf8 out = .error (.versionCommand serr out.status)) := by
  constructor <;> intro h <;> simp [Op.version, hout, herr, h]

/-- Witness for C4: exit code 1 yields the trimmed stdout, exit code 0
yields `VersionCommand`. -/
theorem version_exit_code_one_witness :
    Op.version (fun _ => .ok " 1.2.3 ") ⟨"op"⟩ ⟨[], [], ⟨some 1⟩⟩ =
      .ok " 1.2.3 ".trim ∧
    Op.version (fun _ => .ok " 1.2.3 ") ⟨"op"⟩ ⟨[], [], ⟨some 0⟩⟩ =
      .error (.versionCommand " 1.2.3 " ⟨some 0⟩) := by
  constructor
  · exact (version_exit_code_one (fun _ => .ok " 1.2.3 ") ⟨"op"⟩
      ⟨[], [], ⟨some 1⟩⟩ " 1.2.3 " " 1.2.3 " rfl rfl).1 rfl
  · exact (version_exit_code_one (fun _ => .ok " 1.2.3 ") ⟨"op"⟩
      ⟨[], [], ⟨some 0⟩⟩ " 1.2.3 " " 1.2.3 " rfl rfl).2 (by decide)

/-- C8: the details decoder tries the direct-password shape first and falls
back to the field-list shape, failing only when neither matches; in
particular a payload with a valid `password` field decodes to the
`Password` shape even when a `fields` list is also present. -/
theorem details_decode_password_first :
    (∀ (j : Json) (d : OpItemDetails), decodePasswordShape j = .ok d →
      decodeDetails j = .ok d) ∧
    (∀ (j : Json) (e : String) (d : OpItemDetails),
      decodePasswordShape j = .error e → decodeLoginShape j = .ok d →
      decodeDetails j = .ok d) ∧
    (∀ (j : Json) (e e' : String), decodePasswordShape j = .error e →
      decodeLoginShape j = .error e' →
      decodeDetails j =
        .error "data did not match any variant of OpItemDetails") ∧
    (∀ (p : String) (fj : Json),
      decodeDetails (.obj [("password", .str p), ("fields", fj)]) =
        .ok (.Password p)) := by
  refine ⟨?_, ?_, ?_, ?_⟩
  · intro j d h
    simp [decodeDetails, h]
  · intro j e d h h'
    simp [decodeDetails, h, h']
  · intro j e e' h h'
    simp [decodeDetails, h, h']
  · intro p fj
    rfl

/-- Witness for C8: a payload with both `password` and `fields` decodes to
the `Password` shape, a `fields`-only payload falls back to `Login`, and a
payload matching neither shape fails. -/
theorem details_decode_password_first_witness :
    decodeDetails (.obj [("password", .str "secret"), ("fields", .arr [])]) =
      .ok (.Password "secret") ∧
    decodeDetails (.obj [("fields", .arr [])]) = .ok (.Login []) ∧
    decodeDetails (.obj []) =
      .error "data did not match any variant of OpItemDetails" := by
  refine ⟨?_, ?_, ?_⟩
  · exact details_decode_password_first.2.2.2 "secret" (.arr [])
  · exact details_decode_password_first.2.1 (.obj [("fields", .arr [])])
      "missing field password" (.Login []) rfl rfl
  · exact details_decode_password_first.2.2.1 (.obj [])
      "missing field password" "missing field fields" rfl rfl

/-- C10: on the field-list shape `password()` matches solely on the
designation: the result is absent when no designation equals `"password"`
whatever the names and values are, any returned value comes from a field
whose designation equals `"password"`, and the result is invariant under
changing names and type tags. -/
theorem password_designation_only (u v c : String) (ov : OpItemOverview)
    (fs fs' : List OpItemField) :
    ((∀ f ∈ fs, f.designation ≠ some "password") →
      OpItem.password ⟨u, v, c, ov, .Login fs⟩ = none) ∧
    (∀ s, OpItem.password ⟨u, v, c, ov, .Login fs⟩ = some s →
      ∃ f ∈ fs, f.designation = some "password" ∧ f.value = s) ∧
    (fs.map (fun f => (f.designation, f.value)) =
        fs'.map (fun f => (f.designation, f.value)) →
      OpItem.password ⟨u, v, c, ov, .Login fs⟩ =
        OpItem.password ⟨u, v, c, ov, .Login fs'⟩) := by
  refine ⟨?_, ?_, ?_⟩
  · intro h
    show (fs.find? (fun x => x.designation == some "password")).map
      (fun x => x.value) = none
    rw [List.find?_eq_none.mpr (fun f hf => by simpa using h f hf)]
    rfl
  · intro s h
    have h' : (fs.find? (fun x => x.designation == some "password")).map
        (fun x => x.value) = some s := h
    rcases Option.map_eq_some'.mp h' with ⟨f, hfind, hval⟩
    exact ⟨f, List.mem_of_find?_eq_some hfind,
      by simpa using List.find?_some hfind, hval⟩
  · show fs.map (fun f => (f.designation, f.value)) =
        fs'.map (fun f => (f.designation, f.value)) →
      (fs.find? (fun x => x.designation == some "password")).map
          (fun x => x.value) =
        (fs'.find? (fun x => x.designation == some "password")).map
          (fun x => x.value)
    induction fs generalizing fs' with
    | nil =>
      intro hmap
      cases fs' with
      | nil => rfl
      | cons g gs => simp at hmap
    | cons f ftl ih =>
      intro hmap
      cases fs' with
      | nil => simp at hmap
      | cons g gs =>
        simp only [List.map_cons, List.cons.injEq, Prod.mk.injEq] at hmap
        obtain ⟨⟨hdes, hval⟩, htl⟩ := hmap
        by_cases hq : f.designation = some "password"
        · rw [List.find?_cons_of_pos _ (by simp [hq]),
            List.find?_cons_of_pos _ (by simp [← hdes, hq])]
          simp [hval]
        · rw [List.find?_cons_of_neg _ (by simp [hq]),
            List.find?_cons_of_neg _ (by simp [← hdes, hq])]
          exact ih gs htl

/-- Witness for C10: a field named and valued `"password"` without the
designation is not returned, and renaming fields and type tags leaves the
result unchanged. -/
theorem password_designation_only_witness :
    OpItem.password ⟨"u", "v", "c", ⟨"a", "t"⟩, .Login
      [⟨none, "password", "T", "password"⟩,
       ⟨some "user", "password", "password", "password"⟩]⟩ = none ∧
    OpItem.password ⟨"u", "v", "c", ⟨"a", "t"⟩, .Login
      [⟨some "password", "n1", "T1", "s"⟩]⟩ =
      OpItem.password ⟨"u", "v", "c", ⟨"a", "t"⟩, .Login
        [⟨some "password", "other", "T2", "s"⟩]⟩ := by
  constructor
  · exact (password_designation_only "u" "v" "c" ⟨"a", "t"⟩
      [⟨none, "password", "T", "password"⟩,
       ⟨some "user", "password", "password", "password"⟩] []).1 (by decide)
  · exact (password_designation_only "u" "v" "c" ⟨"a", "t"⟩
      [⟨some "password", "n1", "T1", "s"⟩]
      [⟨some "password", "other", "T2", "s"⟩]).2.2 (by decide)

end OnePassword
